import Mathlib

/-!
Verification of the grblHAL SAMD21 (MKRZERO) stepper pulse engine,
a shallow embedding of src/grblHAL_MKRZERO/src/driver.c.

The embedding models the pulse width/delay state machine, the rate
controller, the output latch and the interrupt vector registry.  Hardware
registers of the two TC timers are modelled as fields of an explicit
state record; the runtime-swapped vector-table entry for the step-pulse
timer interrupt is modelled as an enum tag (one tag per handler installed
by the driver), and the hardware interrupt dispatch as a match on that tag.
-/

set_option autoImplicit false

namespace SAMD21

/-- Interrupt handlers that the driver ever installs in the vector table:
Dummy_Handler (the fallback), STEPPULSE_IRQHandler (end of step pulse),
STEPPULSE_Delayed_IRQHandler (direction-settling delay elapsed), and
STEPPER_IRQHandler (cycle timer / rate controller). -/
inductive Handler where
  | dummy
  | stepPulse
  | stepPulseDelayed
  | stepperMain
deriving DecidableEq, Repr

/-- The stepper_t fields read or written by the pulse-start routines:
step_out, dir_out and dir_changed are per-axis bitmasks (axes_signals_t). -/
structure Stepper where
  step_out : Nat
  dir_out : Nat
  dir_changed : Nat
deriving DecidableEq, Repr

/-- Driver configuration fixed while pulses run: the invert masks from
settings.steppers, the derived pulse_length / pulse_delay tick counts
(static driver variables), the compile-time adaptive-smoothing switch and
hal.f_step_timer. -/
structure Cfg where
  step_invert : Nat
  dir_invert : Nat
  enable_invert : Nat
  pulse_length : Nat
  pulse_delay : Nat
  amass : Bool
  f_step_timer : Nat
deriving DecidableEq, Repr

/-- Mutable driver/hardware state: the physical output pins (already
xored with the invert masks), the remembered step pattern
(next_step_outbits), the vector-table entry for STEP_TIMER_IRQn, and the
registers of the two timers.  For the 16-bit step-pulse timer (TC3) we
keep its CC[0] compare, COUNT, the CTRLA.ENABLE bit and a running flag
(set by CMD_RETRIGGER, cleared when the one-shot expires) plus the MC0
interrupt flag; for the 32-bit cycle timer (TC4/TC5) the CC[0] compare,
COUNT and a running flag (CTRLA.ENABLE / CMD_STOP). -/
structure St where
  step_pins : Nat
  dir_pins : Nat
  enable_pin : Bool
  next_step_outbits : Nat
  step_handler : Handler
  step_cc0 : Nat
  step_count : Nat
  step_enabled : Bool
  step_running : Bool
  step_intflag : Bool
  stepper_cc0 : Nat
  stepper_count : Nat
  stepper_running : Bool
deriving DecidableEq, Repr

/-- AXES_BITMASK for the three-axis (X, Y, Z) build that this board map
(generic_map.h) supports: bits 0..2 set. -/
def AXES_BITMASK : Nat := 7

/-- set_step_outputs: xor the requested bitmask with
settings.steppers.step_invert and write the step pins. -/
def set_step_outputs (cfg : Cfg) (step_outbits : Nat) (st : St) : St :=
  { st with step_pins := step_outbits ^^^ cfg.step_invert }

/-- set_dir_outputs: xor the requested bitmask with
settings.steppers.dir_invert and write the direction pins. -/
def set_dir_outputs (cfg : Cfg) (dir_outbits : Nat) (st : St) : St :=
  { st with dir_pins := dir_outbits ^^^ cfg.dir_invert }

/-- stepperEnable: xor with the enable invert mask and drive the shared
steppersEnable pin from the x bit (bit 0) of the result, as the default
(non-Trinamic, non-IO-expander) build does. -/
def stepperEnable (cfg : Cfg) (enable : Nat) (_hold : Bool) (st : St) : St :=
  { st with enable_pin := (enable ^^^ cfg.enable_invert) &&& 1 ≠ 0 }

/-- stepperCyclesPerTick: write the cycle-timer compare register,
clamping below 2^18 when ADAPTIVE_MULTI_AXIS_STEP_SMOOTHING is defined
and below 2^23 otherwise. -/
def stepperCyclesPerTick (cfg : Cfg) (cycles_per_tick : Nat) (st : St) : St :=
  { st with stepper_cc0 :=
      if cfg.amass then
        if cycles_per_tick < 2 ^ 18 then cycles_per_tick else 2 ^ 18 - 1
      else
        if cycles_per_tick < 2 ^ 23 then cycles_per_tick else 2 ^ 23 - 1 }

/-- stepperWakeUp: enable all axis drivers, zero the cycle-timer COUNT,
set CTRLA.ENABLE on the cycle timer and on the step-pulse timer, then
program an initial cycle value of hal.f_step_timer / 500. -/
def stepperWakeUp (cfg : Cfg) (st : St) : St :=
  let st := stepperEnable cfg AXES_BITMASK false st
  let st := { st with stepper_count := 0 }
  let st := { st with stepper_running := true }
  let st := { st with step_enabled := true }
  stepperCyclesPerTick cfg (cfg.f_step_timer / 500) st

/-- stepperGoIdle: issue CMD_STOP to the cycle timer; when clear_signals
is set, write the zero bitmask through set_step_outputs and
set_dir_outputs.  The step-pulse timer registers are not touched. -/
def stepperGoIdle (cfg : Cfg) (clear_signals : Bool) (st : St) : St :=
  let st := { st with stepper_running := false }
  if clear_signals then
    set_dir_outputs cfg 0 (set_step_outputs cfg 0 st)
  else
    st

/-- The CMD_RETRIGGER | ONESHOT write to the step-pulse timer CTRLBSET:
restarts the counter from zero and arms the one-shot. -/
def retrigger (st : St) : St :=
  { st with step_count := 0, step_running := true }

/-- stepperPulseStart (immediate mode): write directions if dir_changed
is non-empty (clearing the flag), then write steps and retrigger the
one-shot if step_out is non-empty. -/
def stepperPulseStart (cfg : Cfg) (stepper : Stepper) (st : St) :
    Stepper × St :=
  let (stepper, st) :=
    if stepper.dir_changed ≠ 0 then
      ({ stepper with dir_changed := 0 },
       set_dir_outputs cfg stepper.dir_out st)
    else
      (stepper, st)
  if stepper.step_out ≠ 0 then
    (stepper, retrigger (set_step_outputs cfg stepper.step_out st))
  else
    (stepper, st)

/-- stepperPulseStartDelayed: on a direction change write directions and,
when a step is also due, install STEPPULSE_Delayed_IRQHandler, remember
the step pattern in next_step_outbits, load CC[0] with pulse_delay and
retrigger the one-shot, returning without writing steps; with no
direction change behave like the immediate version. -/
def stepperPulseStartDelayed (cfg : Cfg) (stepper : Stepper) (st : St) :
    Stepper × St :=
  if stepper.dir_changed ≠ 0 then
    let stepper := { stepper with dir_changed := 0 }
    let st := set_dir_outputs cfg stepper.dir_out st
    if stepper.step_out ≠ 0 then
      let st := { st with step_handler := Handler.stepPulseDelayed }
      let st := { st with next_step_outbits := stepper.step_out }
      let st := { st with step_cc0 := cfg.pulse_delay }
      (stepper, retrigger st)
    else
      (stepper, st)
  else if stepper.step_out ≠ 0 then
    (stepper, retrigger (set_step_outputs cfg stepper.step_out st))
  else
    (stepper, st)

/-- STEPPULSE_IRQHandler: acknowledge MC0 and clear all step outputs,
ending the pulse. -/
def STEPPULSE_IRQHandler (cfg : Cfg) (st : St) : St :=
  let st := { st with step_intflag := false }
  set_step_outputs cfg 0 st

/-- STEPPULSE_Delayed_IRQHandler: acknowledge MC0, reload CC[0] with
pulse_length, write the remembered next_step_outbits, zero COUNT,
re-install STEPPULSE_IRQHandler and retrigger the one-shot. -/
def STEPPULSE_Delayed_IRQHandler (cfg : Cfg) (st : St) : St :=
  let st := { st with step_intflag := false }
  let st := { st with step_cc0 := cfg.pulse_length }
  let st := set_step_outputs cfg st.next_step_outbits st
  let st := { st with step_count := 0 }
  let st := { st with step_handler := Handler.stepPulse }
  retrigger st

/-- Hardware dispatch for the step-pulse timer interrupt: run whichever
handler is installed in the vector-table slot.  Dummy_Handler and the
cycle-timer handler leave this state unchanged. -/
def dispatchStepIRQ (cfg : Cfg) (st : St) : St :=
  match st.step_handler with
  | Handler.stepPulse => STEPPULSE_IRQHandler cfg st
  | Handler.stepPulseDelayed => STEPPULSE_Delayed_IRQHandler cfg st
  | Handler.dummy => st
  | Handler.stepperMain => st

/-- One tick of the step-pulse timer clock: when the timer is enabled and
armed the counter advances; on compare match the one-shot stops, the MC0
flag is raised and the installed handler runs. -/
def tick (cfg : Cfg) (st : St) : St :=
  if st.step_enabled ∧ st.step_running then
    let c := st.step_count + 1
    if st.step_cc0 ≤ c then
      dispatchStepIRQ cfg
        { st with step_count := c, step_running := false, step_intflag := true }
    else
      { st with step_count := c }
  else
    st

/-- Run the step-pulse timer for n clock ticks. -/
def run (cfg : Cfg) : Nat → St → St
  | 0, st => st
  | n + 1, st => run cfg n (tick cfg st)

/-! ### Exact model of the single-precision computation in settings_changed

The tick counts pulse_length and pulse_delay are computed in C with
float (binary32) arithmetic.  Every binary32 value is a dyadic rational
m * 2^e, so we represent float values exactly by an integer mantissa and
exponent and implement IEEE-754 round-to-nearest-even on that
representation; subtraction and multiplication of dyadics are exact, and
a binary32 operation is the exact operation followed by rounding.
Subnormal underflow and overflow do not occur in the magnitude range of
these computations and are not modelled. -/

/-- Floor of the base-2 logarithm, fuel-driven so that it reduces in the
kernel; ilog2 fuel n is floor (log2 n) for 1 <= n < 2^fuel. -/
def ilog2 : Nat → Nat → Nat
  | 0, _ => 0
  | fuel + 1, n => if n ≤ 1 then 0 else ilog2 fuel (n / 2) + 1

/-- A dyadic rational m * 2^e, the exact value of a binary32 number. -/
structure Dyadic where
  m : ℤ
  e : ℤ
deriving DecidableEq, Repr

/-- Exact difference of two dyadic rationals, aligned to the smaller
exponent. -/
def Dyadic.sub (a b : Dyadic) : Dyadic :=
  let e := min a.e b.e
  ⟨a.m * 2 ^ (a.e - e).toNat - b.m * 2 ^ (b.e - e).toNat, e⟩

/-- Exact product of two dyadic rationals. -/
def Dyadic.mul (a b : Dyadic) : Dyadic :=
  ⟨a.m * b.m, a.e + b.e⟩

/-- IEEE-754 binary32 rounding (round to nearest, ties to even) of a
dyadic rational: reduce the magnitude of the mantissa to at most 24 bits,
rounding the discarded low bits to nearest with ties to even. -/
def round32 (a : Dyadic) : Dyadic :=
  if a.m = 0 then ⟨0, 0⟩
  else
    let n := a.m.natAbs
    let L := ilog2 600 n
    if L ≤ 23 then a
    else
      let s := L - 23
      let q := n / 2 ^ s
      let r := n % 2 ^ s
      let half := 2 ^ (s - 1)
      let q2 :=
        if r < half then q
        else if half < r then q + 1
        else if q % 2 = 0 then q else q + 1
      ⟨if 0 ≤ a.m then (q2 : ℤ) else -(q2 : ℤ), a.e + s⟩

/-- Binary32 subtraction: exact difference, then rounding. -/
def fsub32 (a b : Dyadic) : Dyadic := round32 (Dyadic.sub a b)

/-- Binary32 multiplication: exact product, then rounding. -/
def fmul32 (a b : Dyadic) : Dyadic := round32 (Dyadic.mul a b)

/-- The C cast of a float to a signed integer: truncation toward zero. -/
def truncToInt (a : Dyadic) : ℤ :=
  if 0 ≤ a.e then a.m * 2 ^ a.e.toNat
  else if 0 ≤ a.m then ((a.m.toNat / 2 ^ (-a.e).toNat : ℕ) : ℤ)
  else -((a.m.natAbs / 2 ^ (-a.e).toNat : ℕ) : ℤ)

/-- The binary32 value of the literal 2.3f (STEP_PULSE_LATENCY):
9646899 * 2^-22, the nearest binary32 to 23/10 (justified by
lit_2_3f_nearest below). -/
def lit_2_3f : Dyadic := ⟨9646899, -22⟩

/-- The binary32 value of the literal 1.7f (the fixed delay offset):
14260634 * 2^-23, the nearest binary32 to 17/10 (justified by
lit_1_7f_nearest below). -/
def lit_1_7f : Dyadic := ⟨14260634, -23⟩

/-- The binary32 value of the literal 24.0f, which is exact. -/
def lit_24f : Dyadic := ⟨24, 0⟩

/-- The rational value of a dyadic number. -/
def Dyadic.toRat (a : Dyadic) : ℚ :=
  if 0 ≤ a.e then a.m * 2 ^ a.e.toNat else a.m / 2 ^ (-a.e).toNat

/-- Lines 634-635 of driver.c:
t = (int16_t)(24.0f * (pulse_microseconds - STEP_PULSE_LATENCY)) - 1;
pulse_length = t < 2 ? 2 : t. -/
def pulse_length_calc (w : Dyadic) : ℤ :=
  let t := truncToInt (fmul32 lit_24f (fsub32 w lit_2_3f)) - 1
  if t < 2 then 2 else t

/-- Lines 638-639 of driver.c:
t = (int16_t)(24.0f * (pulse_delay_microseconds - 1.7f)) - 1;
pulse_delay = t < 2 ? 2 : t. -/
def pulse_delay_calc (d : Dyadic) : ℤ :=
  let t := truncToInt (fmul32 lit_24f (fsub32 d lit_1_7f)) - 1
  if t < 2 then 2 else t

/-- Recomputation rule of the spec for pulse_length_ticks, stated over
exact rationals with round(x) = floor(x + 1/2):
max(2, round(24 * (w - 2.3)) - 1).  Used only to compare the spec
formula with the source computation. -/
def spec_pulse_length (w : ℚ) : ℤ :=
  max 2 (⌊24 * (w - 23 / 10) + 1 / 2⌋ - 1)

/-- The hal.stepper.pulse_start function pointer installed by
settings_changed: stepperPulseStart or stepperPulseStartDelayed. -/
inductive PulseMode where
  | immediate
  | delayed
deriving DecidableEq, Repr

/-- The settings fields read by the stepper part of settings_changed. -/
structure SettingsIn where
  pulse_microseconds : Dyadic
  pulse_delay_microseconds : Dyadic
  step_invert : Nat
  dir_invert : Nat
  enable_invert : Nat
deriving DecidableEq, Repr

/-- Driver-global state written by settings_changed: the installed
pulse_start routine, the static pulse_length / pulse_delay variables and
the hardware/driver state. -/
structure Drv where
  mode : PulseMode
  pulse_length : ℤ
  pulse_delay : ℤ
  st : St
deriving DecidableEq, Repr

/-- The stepper-timing part of settings_changed (driver.c lines
622-648): when IOInitDone is set, recompute pulse_length; when
pulse_delay_microseconds > 0.0f recompute pulse_delay and install the
delayed pulse_start, else install the immediate one; zero
next_step_outbits, re-register STEPPULSE_IRQHandler for STEP_TIMER_IRQn
and load the step-timer CC[0] with the new pulse_length. -/
def settings_changed (s : SettingsIn) (ioInitDone : Bool) (d : Drv) : Drv :=
  if ioInitDone then
    let pl := pulse_length_calc s.pulse_microseconds
    let pd :=
      if 0 < s.pulse_delay_microseconds.m then
        pulse_delay_calc s.pulse_delay_microseconds
      else
        d.pulse_delay
    let mode :=
      if 0 < s.pulse_delay_microseconds.m then PulseMode.delayed
      else PulseMode.immediate
    let st := d.st
    let st := { st with next_step_outbits := 0 }
    let st := { st with step_handler := Handler.stepPulse }
    let st := { st with step_cc0 := pl.toNat }
    { mode := mode, pulse_length := pl, pulse_delay := pd, st := st }
  else
    d

/-- The interrupt vector registry: logical interrupt number to installed
handler.  The hardware vector table has 16 system entries before the
peripheral entries, hence the offset. -/
def IRQRegister (vt : ℤ → Handler) (IRQnum : ℤ) (h : Handler) :
    ℤ → Handler :=
  fun i => if i = IRQnum + 16 then h else vt i

/-- IRQUnRegister: install Dummy_Handler for the given interrupt. -/
def IRQUnRegister (vt : ℤ → Handler) (IRQnum : ℤ) : ℤ → Handler :=
  fun i => if i = IRQnum + 16 then Handler.dummy else vt i

/-! ### Concrete sample inputs used by witnesses and counterexamples -/

/-- A sample configuration: no inversion, pulse_length 3, pulse_delay 2,
no adaptive smoothing, 16 MHz step-timer clock. -/
def cfgA : Cfg := ⟨0, 0, 0, 3, 2, false, 16000000⟩

/-- A sample driver state while the engine is running between pulses:
outputs inactive, end-pulse handler installed, step timer enabled and
idle, cycle timer running. -/
def stIdle : St :=
  ⟨0, 0, false, 0, Handler.stepPulse, 3, 0, true, false, false, 40000, 0, true⟩

/-- A sample step command: step and direction change on the X axis. -/
def cmdA : Stepper := ⟨1, 1, 1⟩

/-- A sample no-op step command: no steps and no direction change. -/
def cmdNone : Stepper := ⟨0, 1, 0⟩

/-- A sample vector table with every entry at the fallback handler. -/
def vtA : ℤ → Handler := fun _ => Handler.dummy

/-! ### Lemmas about the step-pulse timer dynamics -/

theorem run_succ (cfg : Cfg) (n : Nat) (st : St) :
    run cfg (n + 1) st = tick cfg (run cfg n st) := by
  induction n generalizing st with
  | zero => rfl
  | succ n ih =>
    show run cfg (n + 1) (tick cfg st) = tick cfg (run cfg (n + 1) st)
    rw [ih (tick cfg st)]
    rfl

theorem run_add (cfg : Cfg) (m n : Nat) (st : St) :
    run cfg (m + n) st = run cfg n (run cfg m st) := by
  induction m generalizing st with
  | zero => rw [Nat.zero_add]; rfl
  | succ m ih =>
    have h : m + 1 + n = m + n + 1 := by omega
    rw [h]
    show run cfg (m + n) (tick cfg st) = run cfg n (run cfg m (tick cfg st))
    exact ih (tick cfg st)

/-- While the counter stays strictly below the compare value the armed
one-shot just counts, leaving every other field unchanged. -/
theorem run_no_fire (cfg : Cfg) (k : Nat) (st : St)
    (he : st.step_enabled = true) (hr : st.step_running = true)
    (hk : st.step_count + k < st.step_cc0) :
    run cfg k st = { st with step_count := st.step_count + k } := by
  induction k generalizing st with
  | zero => rfl
  | succ k ih =>
    show run cfg k (tick cfg st) = _
    have ht : tick cfg st = { st with step_count := st.step_count + 1 } := by
      unfold tick
      rw [if_pos (by exact ⟨he, hr⟩)]
      rw [if_neg (by omega)]
    rw [ht, ih _ (by exact he) (by exact hr) (by dsimp only; omega)]
    dsimp only
    congr 1
    omega

/-- A single tick on which the compare matches: the one-shot stops, the
MC0 flag is raised and the installed handler runs. -/
theorem tick_fire (cfg : Cfg) (st : St)
    (he : st.step_enabled = true) (hr : st.step_running = true)
    (hm : st.step_cc0 ≤ st.step_count + 1) :
    tick cfg st =
      dispatchStepIRQ cfg
        { st with step_count := st.step_count + 1, step_running := false,
                  step_intflag := true } := by
  unfold tick
  rw [if_pos (⟨he, hr⟩ : st.step_enabled ∧ st.step_running), if_pos hm]

/-- After exactly the remaining number of ticks the compare matches: the
one-shot stops, MC0 is raised and the installed handler runs. -/
theorem run_fire (cfg : Cfg) (st : St)
    (he : st.step_enabled = true) (hr : st.step_running = true)
    (hlt : st.step_count < st.step_cc0) :
    run cfg (st.step_cc0 - st.step_count) st =
      dispatchStepIRQ cfg
        { st with step_count := st.step_cc0, step_running := false,
                  step_intflag := true } := by
  have hn : st.step_cc0 - st.step_count = (st.step_cc0 - st.step_count - 1) + 1 := by
    omega
  rw [hn, run_succ]
  rw [run_no_fire cfg _ st he hr (by omega)]
  rw [tick_fire cfg _ (by exact he) (by exact hr)
        (by show st.step_cc0 ≤ st.step_count + (st.step_cc0 - st.step_count - 1) + 1
            omega)]
  congr 2
  show st.step_count + (st.step_cc0 - st.step_count - 1) + 1 = st.step_cc0
  omega

/-! ### Claim theorems -/

/-- C2: for every prior engine state, go_idle with clear_signals = true
stops the cycle timer and writes the zero bitmask xored with the
configured invert masks to all step and direction outputs, so every step
and direction output reads inactive (pin value xor invert mask is zero),
regardless of prior state. -/
theorem C2_go_idle_clears_outputs (cfg : Cfg) (st : St) :
    (stepperGoIdle cfg true st).stepper_running = false ∧
    (stepperGoIdle cfg true st).step_pins = 0 ^^^ cfg.step_invert ∧
    (stepperGoIdle cfg true st).dir_pins = 0 ^^^ cfg.dir_invert ∧
    (stepperGoIdle cfg true st).step_pins ^^^ cfg.step_invert = 0 ∧
    (stepperGoIdle cfg true st).dir_pins ^^^ cfg.dir_invert = 0 := by
  unfold stepperGoIdle set_step_outputs set_dir_outputs
  simp [Nat.zero_xor, Nat.xor_self]

/-- C4: cycles_per_tick programs the cycle-timer compare register with
min(v, 2^18 - 1) under adaptive multi-axis step smoothing and with
min(v, 2^23 - 1) otherwise, so the programmed value is always below the
respective ceiling, for every input. -/
theorem C4_cycles_per_tick_clamped (cfg : Cfg) (v : Nat) (st : St) :
    (stepperCyclesPerTick cfg v st).stepper_cc0 =
      (if cfg.amass then min v (2 ^ 18 - 1) else min v (2 ^ 23 - 1)) ∧
    (stepperCyclesPerTick cfg v st).stepper_cc0 <
      (if cfg.amass then 2 ^ 18 else 2 ^ 23) := by
  unfold stepperCyclesPerTick
  cases h : cfg.amass <;> simp <;> constructor <;> split <;> omega

/-- C6: after a configuration application with initialization done, the
installed pulse_start routine is the Delayed-mode one exactly when the
configured direction-change delay is positive and the Immediate-mode one
when it is zero (or not positive), and the pulse-timer vector entry is
re-registered to the normal end-pulse handler as part of applying the
configuration. -/
theorem C6_mode_selection (s : SettingsIn) (d : Drv) :
    (settings_changed s true d).mode =
      (if 0 < s.pulse_delay_microseconds.m then PulseMode.delayed
       else PulseMode.immediate) ∧
    (settings_changed s true d).st.step_handler = Handler.stepPulse := by
  unfold settings_changed
  constructor <;> simp

/-- C7: wake_up re-asserts drive-enable for all axes (calling the enable
operation with AXES_BITMASK), resets the cycle counter to zero, starts
the cycle timer and the pulse timer, and programs the initial cycle
value hal.f_step_timer / 500 through cycles_per_tick so that the first
cycle-timer interrupt arrives promptly. -/
theorem C7_wake_up (cfg : Cfg) (st : St) :
    (stepperWakeUp cfg st).enable_pin =
      (stepperEnable cfg AXES_BITMASK false st).enable_pin ∧
    (stepperWakeUp cfg st).stepper_count = 0 ∧
    (stepperWakeUp cfg st).stepper_running = true ∧
    (stepperWakeUp cfg st).step_enabled = true ∧
    (stepperWakeUp cfg st).stepper_cc0 =
      (stepperCyclesPerTick cfg (cfg.f_step_timer / 500) st).stepper_cc0 := by
  unfold stepperWakeUp stepperEnable stepperCyclesPerTick
  refine ⟨rfl, rfl, rfl, rfl, rfl⟩

/-- C8: in both modes, pulse_start on a command with empty dir_changed
and empty step_out writes no output, does not arm the one-shot and
leaves the whole engine state (and the command) unchanged. -/
theorem C8_pulse_start_noop (cfg : Cfg) (s : Stepper) (st : St)
    (hd : s.dir_changed = 0) (hs : s.step_out = 0) :
    stepperPulseStart cfg s st = (s, st) ∧
    stepperPulseStartDelayed cfg s st = (s, st) := by
  unfold stepperPulseStart stepperPulseStartDelayed
  simp [hd, hs]

/-- Witness for C8 at the concrete no-op command. -/
theorem C8_witness :
    cmdNone.dir_changed = 0 ∧ cmdNone.step_out = 0 ∧
    (stepperPulseStart cfgA cmdNone stIdle = (cmdNone, stIdle) ∧
     stepperPulseStartDelayed cfgA cmdNone stIdle = (cmdNone, stIdle)) :=
  ⟨rfl, rfl, C8_pulse_start_noop cfgA cmdNone stIdle rfl rfl⟩

/-- C9: register installs the given handler as the vector-table entry of
the given interrupt id, unregister installs the fallback Dummy_Handler,
and both leave the entry of every other interrupt id unchanged. -/
theorem C9_irq_registry (vt : ℤ → Handler) (n : ℤ) (h : Handler) (m : ℤ)
    (hm : m ≠ n + 16) :
    IRQRegister vt n h (n + 16) = h ∧
    IRQRegister vt n h m = vt m ∧
    IRQUnRegister vt n (n + 16) = Handler.dummy ∧
    IRQUnRegister vt n m = vt m := by
  unfold IRQRegister IRQUnRegister
  simp [hm]

/-- Witness for C9 at interrupt id 18 (TC3) and unrelated entry 0. -/
theorem C9_witness :
    IRQRegister vtA 18 Handler.stepPulseDelayed (18 + 16) =
      Handler.stepPulseDelayed ∧
    IRQRegister vtA 18 Handler.stepPulseDelayed 0 = vtA 0 ∧
    IRQUnRegister vtA 18 (18 + 16) = Handler.dummy ∧
    IRQUnRegister vtA 18 0 = vtA 0 :=
  C9_irq_registry vtA 18 Handler.stepPulseDelayed 0 (by decide)

/-- C10: every configuration application with initialization done clears
the pending step pattern, re-registers the end-pulse handler for the
pulse-timer interrupt and loads the pulse-timer compare register with
the newly derived pulse length, so no stale pending pattern or leftover
delay-elapsed handler survives a configuration change. -/
theorem C10_settings_reset (s : SettingsIn) (d : Drv) :
    (settings_changed s true d).st.next_step_outbits = 0 ∧
    (settings_changed s true d).st.step_handler = Handler.stepPulse ∧
    (settings_changed s true d).pulse_length =
      pulse_length_calc s.pulse_microseconds ∧
    (settings_changed s true d).st.step_cc0 =
      (settings_changed s true d).pulse_length.toNat := by
  unfold settings_changed
  refine ⟨rfl, rfl, rfl, rfl⟩

/-- C3 counterexample: with no inversion, pulse_delay 2 and
pulse_length 3, start a Delayed-mode pulse with a direction change and a
step due, then call go_idle(true).  The pulse-timer one-shot is still
armed after the call, and two pulse-timer clock ticks later the pending
delay-elapsed interrupt runs and re-asserts step output bit 0, so the
one-shot was not explicitly stopped and a later pulse-timer interrupt
does re-assert a step output. -/
theorem C3_counterexample :
    (stepperGoIdle cfgA true
        (stepperPulseStartDelayed cfgA cmdA stIdle).2).step_running = true ∧
    (stepperGoIdle cfgA true
        (stepperPulseStartDelayed cfgA cmdA stIdle).2).step_pins = 0 ∧
    (run cfgA 2 (stepperGoIdle cfgA true
        (stepperPulseStartDelayed cfgA cmdA stIdle).2)).step_pins = 1 ∧
    (run cfgA 2 (stepperGoIdle cfgA true
        (stepperPulseStartDelayed cfgA cmdA stIdle).2)).step_pins ≠ 0 := by
  decide

/-- C3 (amended): go_idle unconditionally stops the cycle timer and,
when clear_signals is requested, forces all step and direction outputs
to their inactive level, but it never stops an in-flight pulse-timer
one-shot: the pulse timer's armed state, compare value, counter and
registered handler are all left unchanged, so a pending Delayed-mode
delay-elapsed interrupt can still fire after go_idle(true) and re-assert
the remembered step pattern (see the counterexample). -/
theorem C3_go_idle_leaves_pulse_timer (cfg : Cfg) (clear : Bool) (st : St) :
    (stepperGoIdle cfg clear st).stepper_running = false ∧
    (stepperGoIdle cfg true st).step_pins ^^^ cfg.step_invert = 0 ∧
    (stepperGoIdle cfg true st).dir_pins ^^^ cfg.dir_invert = 0 ∧
    (stepperGoIdle cfg clear st).step_running = st.step_running ∧
    (stepperGoIdle cfg clear st).step_cc0 = st.step_cc0 ∧
    (stepperGoIdle cfg clear st).step_count = st.step_count ∧
    (stepperGoIdle cfg clear st).step_handler = st.step_handler ∧
    (stepperGoIdle cfg clear st).step_enabled = st.step_enabled ∧
    (stepperGoIdle cfg clear st).next_step_outbits = st.next_step_outbits := by
  unfold stepperGoIdle set_step_outputs set_dir_outputs
  cases clear <;> simp [Nat.zero_xor, Nat.xor_self]

/-- The literal 2.3f is faithfully modelled: lit_2_3f is within half an
ulp (2^-23 in the binade of 2.3) of 23/10, hence it is the binary32
value of the C literal 2.3f. -/
theorem lit_2_3f_nearest :
    23 / 10 - 1 / 2 ^ 23 < lit_2_3f.toRat ∧ lit_2_3f.toRat < 23 / 10 + 1 / 2 ^ 23 := by
  have h : lit_2_3f.toRat = 9646899 / 4194304 := by
    simp only [lit_2_3f, Dyadic.toRat]
    rw [if_neg (by decide)]
    rw [show (-(-22 : ℤ)).toNat = 22 from rfl]
    norm_num
  rw [h]
  norm_num

/-- The literal 1.7f is faithfully modelled: lit_1_7f is within half an
ulp (2^-24 in the binade of 1.7) of 17/10, hence it is the binary32
value of the C literal 1.7f. -/
theorem lit_1_7f_nearest :
    17 / 10 - 1 / 2 ^ 24 < lit_1_7f.toRat ∧ lit_1_7f.toRat < 17 / 10 + 1 / 2 ^ 24 := by
  have h : lit_1_7f.toRat = 14260634 / 8388608 := by
    simp only [lit_1_7f, Dyadic.toRat]
    rw [if_neg (by decide)]
    rw [show (-(-23 : ℤ)).toNat = 23 from rfl]
    norm_num
  rw [h]
  norm_num

/-- C5 counterexample: at the configured pulse width 10.0f microseconds
(the spec's own example width, whose dyadic model has rational value
10), the source computes pulse_length = 183 because the C cast truncates
the single-precision product toward zero, while the claimed formula
max(2, round(24 * (w - 2.3)) - 1) yields 184, so the claimed equality
fails. -/
theorem C5_counterexample :
    (Dyadic.mk 10 0).toRat = 10 ∧
    pulse_length_calc ⟨10, 0⟩ = 183 ∧
    spec_pulse_length 10 = 184 ∧
    pulse_length_calc ⟨10, 0⟩ ≠ spec_pulse_length 10 := by
  have h1 : (Dyadic.mk 10 0).toRat = 10 := by
    unfold Dyadic.toRat
    norm_num
  have h2 : pulse_length_calc ⟨10, 0⟩ = 183 := by decide
  have h3 : spec_pulse_length 10 = 184 := by
    unfold spec_pulse_length
    rw [show ((24 : ℚ) * (10 - 23 / 10) + 1 / 2) = 1853 / 10 by norm_num]
    rw [show (⌊(1853 / 10 : ℚ)⌋ = 185) from by
      rw [Int.floor_eq_iff]
      norm_num]
    norm_num
  exact ⟨h1, h2, h3, by rw [h2, h3]; decide⟩

/-- C1: in Delayed mode, pulse_start on a command with non-empty
dir_changed and non-empty step_out writes the direction outputs
immediately without writing steps, stores the step pattern as pending,
switches the pulse-timer vector entry to the delay-elapsed handler and
arms a one-shot for pulse_delay ticks; the step outputs stay unchanged
for the whole delay window; when the one-shot fires after pulse_delay
ticks the delay-elapsed handler acknowledges the interrupt, reprograms
the compare to pulse_length, writes the remembered pattern through the
output latch, resets the counter to zero, switches the vector entry back
to the end-pulse handler and re-arms the one-shot; the steps stay
asserted for pulse_length further ticks and are then cleared. -/
theorem C1_delayed_mode (cfg : Cfg) (cmd : Stepper) (st0 : St)
    (hd : cmd.dir_changed ≠ 0) (hs : cmd.step_out ≠ 0)
    (hpd : 1 ≤ cfg.pulse_delay) (hpl : 1 ≤ cfg.pulse_length)
    (hen : st0.step_enabled = true) :
    (stepperPulseStartDelayed cfg cmd st0).2.dir_pins =
      cmd.dir_out ^^^ cfg.dir_invert ∧
    (stepperPulseStartDelayed cfg cmd st0).2.step_pins = st0.step_pins ∧
    (stepperPulseStartDelayed cfg cmd st0).2.next_step_outbits = cmd.step_out ∧
    (stepperPulseStartDelayed cfg cmd st0).2.step_handler =
      Handler.stepPulseDelayed ∧
    (stepperPulseStartDelayed cfg cmd st0).2.step_cc0 = cfg.pulse_delay ∧
    (stepperPulseStartDelayed cfg cmd st0).2.step_running = true ∧
    (stepperPulseStartDelayed cfg cmd st0).1.dir_changed = 0 ∧
    (∀ k < cfg.pulse_delay,
      (run cfg k (stepperPulseStartDelayed cfg cmd st0).2).step_pins =
        st0.step_pins) ∧
    (run cfg cfg.pulse_delay (stepperPulseStartDelayed cfg cmd st0).2).step_intflag = false ∧
    (run cfg cfg.pulse_delay (stepperPulseStartDelayed cfg cmd st0).2).step_cc0 = cfg.pulse_length ∧
    (run cfg cfg.pulse_delay (stepperPulseStartDelayed cfg cmd st0).2).step_pins = cmd.step_out ^^^ cfg.step_invert ∧
    (run cfg cfg.pulse_delay (stepperPulseStartDelayed cfg cmd st0).2).step_count = 0 ∧
    (run cfg cfg.pulse_delay (stepperPulseStartDelayed cfg cmd st0).2).step_handler = Handler.stepPulse ∧
    (run cfg cfg.pulse_delay (stepperPulseStartDelayed cfg cmd st0).2).step_running = true ∧
    (∀ j < cfg.pulse_length,
      (run cfg (cfg.pulse_delay + j) (stepperPulseStartDelayed cfg cmd st0).2).step_pins =
        cmd.step_out ^^^ cfg.step_invert) ∧
    (run cfg (cfg.pulse_delay + cfg.pulse_length) (stepperPulseStartDelayed cfg cmd st0).2).step_pins =
      0 ^^^ cfg.step_invert := by
  have e1 : stepperPulseStartDelayed cfg cmd st0 =
      ({ cmd with dir_changed := 0 },
       { st0 with dir_pins := cmd.dir_out ^^^ cfg.dir_invert,
                  next_step_outbits := cmd.step_out,
                  step_handler := Handler.stepPulseDelayed,
                  step_cc0 := cfg.pulse_delay,
                  step_count := 0,
                  step_running := true }) := by
    unfold stepperPulseStartDelayed set_dir_outputs retrigger
    rw [if_pos hd]
    dsimp only
    rw [if_pos hs]
  have e2 : run cfg cfg.pulse_delay (stepperPulseStartDelayed cfg cmd st0).2 =
      { st0 with dir_pins := cmd.dir_out ^^^ cfg.dir_invert,
                 next_step_outbits := cmd.step_out,
                 step_handler := Handler.stepPulse,
                 step_cc0 := cfg.pulse_length,
                 step_count := 0,
                 step_running := true,
                 step_intflag := false,
                 step_pins := cmd.step_out ^^^ cfg.step_invert } := by
    rw [e1]
    exact run_fire cfg
      { st0 with dir_pins := cmd.dir_out ^^^ cfg.dir_invert,
                 next_step_outbits := cmd.step_out,
                 step_handler := Handler.stepPulseDelayed,
                 step_cc0 := cfg.pulse_delay,
                 step_count := 0,
                 step_running := true }
      (by exact hen) rfl (by show 0 < cfg.pulse_delay; omega)
  refine ⟨by rw [e1], by rw [e1], by rw [e1], by rw [e1], by rw [e1],
          by rw [e1], by rw [e1], ?_, by rw [e2], by rw [e2], by rw [e2],
          by rw [e2], by rw [e2], by rw [e2], ?_, ?_⟩
  · intro k hk
    rw [e1]
    rw [run_no_fire cfg k
          { st0 with dir_pins := cmd.dir_out ^^^ cfg.dir_invert,
                     next_step_outbits := cmd.step_out,
                     step_handler := Handler.stepPulseDelayed,
                     step_cc0 := cfg.pulse_delay,
                     step_count := 0,
                     step_running := true }
          (by exact hen) rfl (by show 0 + k < cfg.pulse_delay; omega)]
  · intro j hj
    rw [run_add, e2]
    rw [run_no_fire cfg j
          { st0 with dir_pins := cmd.dir_out ^^^ cfg.dir_invert,
                     next_step_outbits := cmd.step_out,
                     step_handler := Handler.stepPulse,
                     step_cc0 := cfg.pulse_length,
                     step_count := 0,
                     step_running := true,
                     step_intflag := false,
                     step_pins := cmd.step_out ^^^ cfg.step_invert }
          (by exact hen) rfl (by show 0 + j < cfg.pulse_length; omega)]
  · rw [run_add, e2]
    exact congrArg St.step_pins
      (run_fire cfg
        { st0 with dir_pins := cmd.dir_out ^^^ cfg.dir_invert,
                   next_step_outbits := cmd.step_out,
                   step_handler := Handler.stepPulse,
                   step_cc0 := cfg.pulse_length,
                   step_count := 0,
                   step_running := true,
                   step_intflag := false,
                   step_pins := cmd.step_out ^^^ cfg.step_invert }
        (by exact hen) rfl (by show 0 < cfg.pulse_length; omega))

/-- Witness for C1 at cfgA (pulse_delay 2, pulse_length 3, no
inversion), the X-axis command cmdA and the idle running state. -/
theorem C1_witness :
    (cmdA.dir_changed ≠ 0 ∧ cmdA.step_out ≠ 0 ∧ 1 ≤ cfgA.pulse_delay ∧
     1 ≤ cfgA.pulse_length ∧ stIdle.step_enabled = true) ∧
    ((stepperPulseStartDelayed cfgA cmdA stIdle).2.dir_pins =
       cmdA.dir_out ^^^ cfgA.dir_invert ∧
     (stepperPulseStartDelayed cfgA cmdA stIdle).2.step_pins = stIdle.step_pins ∧
     (stepperPulseStartDelayed cfgA cmdA stIdle).2.next_step_outbits = cmdA.step_out ∧
     (stepperPulseStartDelayed cfgA cmdA stIdle).2.step_handler =
       Handler.stepPulseDelayed ∧
     (stepperPulseStartDelayed cfgA cmdA stIdle).2.step_cc0 = cfgA.pulse_delay ∧
     (stepperPulseStartDelayed cfgA cmdA stIdle).2.step_running = true ∧
     (stepperPulseStartDelayed cfgA cmdA stIdle).1.dir_changed = 0 ∧
     (∀ k < cfgA.pulse_delay,
       (run cfgA k (stepperPulseStartDelayed cfgA cmdA stIdle).2).step_pins =
         stIdle.step_pins) ∧
     (run cfgA cfgA.pulse_delay (stepperPulseStartDelayed cfgA cmdA stIdle).2).step_intflag = false ∧
     (run cfgA cfgA.pulse_delay (stepperPulseStartDelayed cfgA cmdA stIdle).2).step_cc0 = cfgA.pulse_length ∧
     (run cfgA cfgA.pulse_delay (stepperPulseStartDelayed cfgA cmdA stIdle).2).step_pins = cmdA.step_out ^^^ cfgA.step_invert ∧
     (run cfgA cfgA.pulse_delay (stepperPulseStartDelayed cfgA cmdA stIdle).2).step_count = 0 ∧
     (run cfgA cfgA.pulse_delay (stepperPulseStartDelayed cfgA cmdA stIdle).2).step_handler = Handler.stepPulse ∧
     (run cfgA cfgA.pulse_delay (stepperPulseStartDelayed cfgA cmdA stIdle).2).step_running = true ∧
     (∀ j < cfgA.pulse_length,
       (run cfgA (cfgA.pulse_delay + j) (stepperPulseStartDelayed cfgA cmdA stIdle).2).step_pins =
         cmdA.step_out ^^^ cfgA.step_invert) ∧
     (run cfgA (cfgA.pulse_delay + cfgA.pulse_length) (stepperPulseStartDelayed cfgA cmdA stIdle).2).step_pins =
       0 ^^^ cfgA.step_invert) :=
  ⟨⟨by decide, by decide, by decide, by decide, rfl⟩,
   C1_delayed_mode cfgA cmdA stIdle (by decide) (by decide) (by decide)
     (by decide) rfl⟩

/-- C5 (amended): the derived tick counts follow the source computation
in single-precision arithmetic with the final cast truncating toward
zero (not rounding to nearest): pulse_length equals
max(2, trunc(24.0f *f32 (w -f32 2.3f)) - 1) and pulse_delay equals
max(2, trunc(24.0f *f32 (d -f32 1.7f)) - 1); in particular both derived
tick counts are at least 2 for every configured value, including widths
below the fixed latency, which are clamped rather than rejected. -/
theorem C5_pulse_ticks_clamped (w d : Dyadic) :
    pulse_length_calc w =
      max 2 (truncToInt (fmul32 lit_24f (fsub32 w lit_2_3f)) - 1) ∧
    2 ≤ pulse_length_calc w ∧
    pulse_delay_calc d =
      max 2 (truncToInt (fmul32 lit_24f (fsub32 d lit_1_7f)) - 1) ∧
    2 ≤ pulse_delay_calc d := by
  unfold pulse_length_calc pulse_delay_calc
  dsimp only
  refine ⟨?_, ?_, ?_, ?_⟩ <;> split <;> omega

end SAMD21
